import Mathlib

/-!
Verification of the lambda-ingest-pipeline repository (INSAT-3D HDF5 ingestion
lambda). The Python sources are shallowly embedded: Python dicts become
insertion-ordered association lists over String keys, JSON-style Python values
become the PyVal type, subprocess behaviour and the cloud SDK calls become
explicit environment parameters, and exceptions become Option results or
explicit outcome cases. Each embedded definition mirrors one function of
src/hello_world (metadata_handler.py, l1bconvertandupload.py, app.py).
Definitions come first, then the lemmas and the claim theorems.
-/

set_option autoImplicit false

/-! Association-list model of a Python dict: insertion order is kept, an
insert on an existing key updates that entry in place, and a lookup scans from
the front. With unique keys this is exactly the dict semantics the code relies
on. -/

/-- Lookup of a key in an insertion-ordered association list. -/
def lookupA {α : Type} (d : List (String × α)) (k : String) : Option α :=
  match d with
  | [] => none
  | kv :: rest => if kv.1 = k then some kv.2 else lookupA rest k

/-- Python dict assignment d[k] = v: update the existing entry in place, or
append a new entry at the end. -/
def dictInsert {α : Type} (d : List (String × α)) (k : String) (v : α) :
    List (String × α) :=
  match d with
  | [] => [(k, v)]
  | kv :: rest => if kv.1 = k then (k, v) :: rest else kv :: dictInsert rest k v

/-- Generic shape of the dict-building loops in the source: fold a list of
entries, inserting the transformed value when the per-entry transformation
yields one and skipping the entry otherwise. -/
def dictFold {β γ : Type} (F : String × β → Option γ) (l : List (String × β))
    (acc : List (String × γ)) : List (String × γ) :=
  l.foldl (fun a kv =>
    match F kv with
    | some v => dictInsert a kv.1 v
    | none => a) acc

/-! Model of the Python/JSON values that gdalinfo -json can feed into
MetadataHandler. Floats are never computed with by the code (they are only
type-tested, truth-tested and rendered), so a float is modelled by its
zero-ness flag (Python truthiness) and its repr rendering. The mutual PyList
type is a plain list of values; it keeps the recursion structural. -/

mutual
inductive PyVal where
  | pstr (s : String)
  | pint (n : Int)
  | pfloat (isZero : Bool) (rendering : String)
  | pbool (b : Bool)
  | pnone
  | plist (xs : PyList)
  deriving DecidableEq
inductive PyList where
  | nil
  | cons (v : PyVal) (vs : PyList)
  deriving DecidableEq
end

/-- Number of elements of a PyList, as Python len. -/
def PyList.lengthP : PyList → Nat
  | .nil => 0
  | .cons _ vs => 1 + vs.lengthP

mutual
/-- Python repr of a value (strings quoted, lists bracketed). -/
def pyRepr : PyVal → String
  | .pstr s => "\x27" ++ s ++ "\x27"
  | .pint n => toString n
  | .pfloat _ r => r
  | .pbool true => "True"
  | .pbool false => "False"
  | .pnone => "None"
  | .plist xs => "[" ++ String.intercalate ", " (pyReprList xs) ++ "]"
/-- Renderings of the elements of a list value. -/
def pyReprList : PyList → List String
  | .nil => []
  | .cons v vs => pyRepr v :: pyReprList vs
end

/-- Python str of a value: the string itself for a string, repr otherwise. -/
def pyStr : PyVal → String
  | .pstr s => s
  | v => pyRepr v

/-- Python truthiness, as used by the if date_str and time_str test. -/
def pyTruthy : PyVal → Bool
  | .pstr s => !s.isEmpty
  | .pint n => n != 0
  | .pfloat isZero _ => !isZero
  | .pbool b => b
  | .pnone => false
  | .plist xs => !(xs.lengthP = 0)

/-! Embedding of src/hello_world/utils/metadata_handler.py. -/

/-- Required field names of MetadataHandler.REQUIRED_FIELDS. -/
def REQUIRED_FIELDS : List String :=
  ["Unique_Id", "Acquisition_Date", "Acquisition_Time_in_GMT"]

/-- Value conversion done by the remaining-fields loop of _process_metadata:
a list or float value is kept (a one-element list is unwrapped to its sole
element), every other value is stringified. -/
def convertVal : PyVal → PyVal
  | .plist (.cons x .nil) => x
  | .plist xs => .plist xs
  | .pfloat z r => .pfloat z r
  | v => .pstr (pyStr v)

/-- First phase of MetadataHandler._process_metadata: copy each present
required field, stringified. -/
def metaRequired (raw : List (String × PyVal)) : List (String × PyVal) :=
  REQUIRED_FIELDS.foldl (fun acc field =>
    match lookupA raw field with
    | some v => dictInsert acc field (PyVal.pstr (pyStr v))
    | none => acc) []

/-- Second phase of MetadataHandler._process_metadata: when the date and time
fields are both present and truthy, synthesize the combined acquisition
timestamp date T time Z (an f-string, so both parts are rendered with str). -/
def metaWithTimestamp (raw : List (String × PyVal)) : List (String × PyVal) :=
  let dateV := (lookupA raw "Acquisition_Date").getD (PyVal.pstr "")
  let timeV := (lookupA raw "Acquisition_Time_in_GMT").getD (PyVal.pstr "")
  if pyTruthy dateV && pyTruthy timeV then
    dictInsert (metaRequired raw) "acquisition_timestamp"
      (PyVal.pstr (pyStr dateV ++ "T" ++ pyStr timeV ++ "Z"))
  else metaRequired raw

/-- MetadataHandler._process_metadata: required fields, then the synthesized
timestamp, then the remaining-fields loop over every raw entry (None values
skipped; the loop also revisits and overwrites the entries written by the two
earlier phases, since it iterates the whole raw mapping). The try/except of
the source cannot fire in this model: no statement in the body raises. -/
def process_metadata (raw : List (String × PyVal)) : List (String × PyVal) :=
  raw.foldl (fun acc kv =>
    match kv.2 with
    | PyVal.pnone => acc
    | v => dictInsert acc kv.1 (convertVal v)) (metaWithTimestamp raw)

/-- Per-entry transformation of the remaining-fields loop, in the Option form
used by the dictFold lemmas. -/
def remF (kv : String × PyVal) : Option PyVal :=
  match kv.2 with
  | PyVal.pnone => none
  | v => some (convertVal v)

/-- DynamoDB attribute values as built by upload_metadata: a string-tagged or
a number-tagged rendering. The dict comprehension in the source produces no
other shape. -/
inductive DynVal where
  | S (s : String)
  | N (s : String)
  deriving DecidableEq

/-- Per-value conversion of the upload_metadata item comprehension: a str
value gets tag S with str(v) (which is the string itself), every other value
gets tag N with str(v). -/
def dynOf (v : PyVal) : DynVal :=
  match v with
  | PyVal.pstr s => DynVal.S s
  | v => DynVal.N (pyStr v)

/-- Item built by upload_metadata from the processed metadata. -/
def itemOf (d : List (String × PyVal)) : List (String × DynVal) :=
  d.map (fun kv => (kv.1, dynOf kv.2))

/-- Environment of one upload_metadata call: the raw mapping that
_extract_metadata produced (empty also stands for an extraction failure,
since _extract_metadata returns an empty dict on every error), and whether
the DynamoDB put_item call succeeds. -/
structure UploadEnv where
  raw : List (String × PyVal)
  putOk : Bool

/-- MetadataHandler.upload_metadata: abort with False when extraction yielded
nothing, abort with False when processing yielded nothing, otherwise build the
item and attempt the put_item write; a store fault (ClientError) is caught and
reported as False. The first component is the record durably written, the
second the returned boolean. -/
def upload_metadata (env : UploadEnv) : Option (List (String × DynVal)) × Bool :=
  match env.raw with
  | [] => (none, false)
  | _ :: _ =>
    match process_metadata env.raw with
    | [] => (none, false)
    | p :: ps =>
      if env.putOk then (some (itemOf (p :: ps)), true) else (none, false)

/-! Embedding of src/hello_world/dataset_extraction_scripts/l1bconvertandupload.py. -/

/-- Behaviour of one subprocess run: either the process exited with a code and
captured stdout/stderr texts, or it exceeded the timeout. -/
inductive ProcOutcome where
  | exited (code : Nat) (stdoutText : String) (stderrText : String)
  | timedOut
  deriving DecidableEq

/-- INSAT3DProcessor._run_command: exit code zero yields (true, stdout); a
timeout is caught and yields (false, Timeout); a non-zero exit raises
CalledProcessError, which is caught and yields (false, stderr). The function
is total: none of the three cases lets a fault escape to the caller. -/
def run_command (command : List String) (timeoutSec : Nat) (o : ProcOutcome) :
    Bool × String :=
  match o with
  | .exited code out err => if code = 0 then (true, out) else (false, err)
  | .timedOut => (false, "Timeout")

/-! Python string primitives used by the parsing code, over character lists.
The fuel argument of splitGo only pads the recursion; every recursive call
consumes at least one character, and the callers pass length plus one. -/

/-- Python str.split with a non-empty separator: scan left to right, cutting
at each non-overlapping occurrence of the separator. -/
def splitGo (sep : List Char) : Nat → List Char → List Char → List (List Char)
  | 0, s, cur => [cur.reverse ++ s]
  | _ + 1, [], cur => [cur.reverse]
  | fuel + 1, c :: rest, cur =>
    if sep.isPrefixOf (c :: rest) && !sep.isEmpty then
      cur.reverse :: splitGo sep fuel (List.drop (sep.length - 1) rest) []
    else
      splitGo sep fuel rest (c :: cur)

/-- Python s.split(sep) for a non-empty separator string. -/
def pySplit (sep s : String) : List String :=
  (splitGo sep.toList (s.toList.length + 1) s.toList []).map List.asString

/-- Python s.splitlines() restricted to newline-separated text: split on the
newline character and drop the trailing empty piece a final newline leaves. -/
def pySplitlines (s : String) : List String :=
  if s.isEmpty then []
  else
    let parts := pySplit "\n" s
    if parts.getLast? = some "" then parts.dropLast else parts

/-- Python substring containment test (pat in s) for a non-empty pattern. -/
def pyIn (pat s : String) : Bool := (pySplit pat s).length != 1

/-- Python s.strip(c) for a single strip character: remove every leading and
trailing occurrence of that character. -/
def pyStripC (c : Char) (s : String) : String :=
  (((s.toList.dropWhile (· == c)).reverse.dropWhile (· == c)).reverse).asString

/-- Python s.strip() on the ASCII whitespace the tool output can contain. -/
def pyStripWs (s : String) : String :=
  (((s.toList.dropWhile Char.isWhitespace).reverse.dropWhile
    Char.isWhitespace).reverse).asString

/-- Line filter of _get_subdatasets: a line is treated as a subdataset
declaration when it contains SUBDATASET, NAME and the ://IMG_ marker. -/
def lineMatches (line : String) : Bool :=
  pyIn "SUBDATASET" line && pyIn "NAME" line && pyIn "://IMG_" line

/-- Extraction attempted on a matching line: piece [1] of the split on the
equals sign, whitespace-stripped, is the path; piece [1] of the path split on
the ://IMG_ marker, cut at the first quote, is the band name; the stored value
is the path stripped of surrounding quote characters. A missing piece [1] is
an IndexError, modelled as none. -/
def lineEntry (line : String) : Option (String × String) :=
  match (pySplit "=" line).get? 1 with
  | none => none
  | some piece =>
    let path := pyStripWs piece
    match (pySplit "://IMG_" path).get? 1 with
    | none => none
    | some rest =>
      some (((pySplit "\"" rest).headD ""), pyStripC '"' path)

/-- One iteration of the parsing loop of _get_subdatasets: skip a line that
does not match, otherwise extract and assign into the dict; none propagates
the IndexError that aborts the whole loop. -/
def subStep (acc : List (String × String)) (line : String) :
    Option (List (String × String)) :=
  if lineMatches line then
    match lineEntry line with
    | none => none
    | some e => some (dictInsert acc e.1 e.2)
  else some acc

/-- Parsing part of INSAT3DProcessor._get_subdatasets, a pure function of the
gdalinfo stdout text: fold the loop over the lines; an IndexError inside the
loop is caught by the surrounding try, which returns the empty dict. -/
def get_subdatasets_parse (output : String) : List (String × String) :=
  match List.foldlM subStep [] (pySplitlines output) with
  | some d => d
  | none => []

/-- INSAT3DProcessor._get_subdatasets: run gdalinfo on the input path; a
failed run yields the empty dict, a successful run is parsed. -/
def get_subdatasets (inputPath : String) (gdalinfoOutcome : ProcOutcome) :
    List (String × String) :=
  let res := run_command ["/usr/bin/gdalinfo", inputPath] 600 gdalinfoOutcome
  if res.1 then get_subdatasets_parse res.2 else []

/-- Behaviour of the environment for one process_band call: the gdal_translate
conversion and the S3 upload either both succeed, or the conversion fails
(returns a failed run), or the upload raises a fault inside the try. -/
inductive BandEnv where
  | ok
  | convFail
  | uploadRaise
  deriving DecidableEq

/-- Local temporary artifact path derived from the band identifier, as the
f-string /tmp/ band _cog.tiff of process_band. -/
def tempPath (band : String) : String := "/tmp/" ++ band ++ "_cog.tiff"

/-- Effect of os.remove guarded by os.path.exists: the path is no longer
present in the filesystem, modelled as a list of present paths. -/
def fsRemove (fs : List String) (p : String) : List String :=
  fs.filter (fun q => q != p)

/-- INSAT3DProcessor.process_band: derive the temp path and the S3 key from
the band name, convert, upload, return the s3 destination on success and None
on a conversion failure or a caught fault; the finally block always removes
the temp artifact. The pair is (returned value, filesystem after return),
starting from the filesystem fs. -/
def process_band (bucket filename band subPath : String) (e : BandEnv)
    (fs : List String) : Option String × List String :=
  let temp := tempPath band
  let key := filename ++ "/" ++ band ++ "_cog.tiff"
  match e with
  | .convFail => (none, fsRemove fs temp)
  | .uploadRaise => (none, fsRemove (temp :: fs) temp)
  | .ok => (some ("s3://" ++ bucket ++ "/" ++ key), fsRemove (temp :: fs) temp)

/-- Environment of one invocation: destination bucket, source filename stem,
the metadata environment, the discovered subdataset mapping, and the
per-band conversion behaviour. -/
structure ProcEnv where
  bucket : String
  filename : String
  meta : UploadEnv
  subs : List (String × String)
  benv : String → BandEnv

/-- Band-processing part of INSAT3DProcessor.process: drive process_band for
every discovered entry and collect results keyed by band name, keeping an
entry only when the future returned a truthy (non-empty) value; an exception
from a worker is caught and logged, leaving the dict untouched. Completion
order only permutes dict insertion order; content is order-independent, so
submission order is used. -/
def processResults (e : ProcEnv) : List (String × String) :=
  e.subs.foldl (fun acc bp =>
    match (process_band e.bucket e.filename bp.1 bp.2 (e.benv bp.1) []).1 with
    | some r => if r = "" then acc else dictInsert acc bp.1 r
    | none => acc) []

/-- Per-band transformation of the orchestrator loop, in the Option form used
by the dictFold lemmas. -/
def bandF (e : ProcEnv) (bp : String × String) : Option String :=
  match (process_band e.bucket e.filename bp.1 bp.2 (e.benv bp.1) []).1 with
  | some r => if r = "" then none else some r
  | none => none

/-! Embedding of the two serverless entry points. Both assume a well-formed
trigger event; an uncaught fault before processing would be converted to a
500 response by the outermost except, but no statement of the modelled bodies
raises. -/

/-- process_file of l1bconvertandupload.py: run the processor; an empty
result dict raises, which the handler catches and converts into a 500
response carrying the error text; otherwise a 200 response lists the
processed band names. -/
def process_file (e : ProcEnv) : Nat × (List String ⊕ String) :=
  match processResults e with
  | [] => (500, Sum.inr "No output files generated")
  | r :: rs => (200, Sum.inl ((r :: rs).map Prod.fst))

/-- lambda_handler of app.py: upload metadata directly, then run the
processor (which uploads metadata again), and always answer 200 with the
metadata flag and the processed band names, even when the result dict is
empty. -/
def lambda_handler (e : ProcEnv) : Nat × (Bool × List String) :=
  (200, ((upload_metadata e.meta).2, (processResults e).map Prod.fst))

/-! Event traces, recording which externally visible operations one
invocation attempts and in which order. -/

/-- Operations recorded by a trace: one metadata extraction attempt, one
DynamoDB record write attempt, one subdataset discovery, one band
conversion. -/
inductive Ev where
  | metaExtract
  | metaWrite
  | discover
  | convert (band : String)
  deriving DecidableEq

/-- Trace of one upload_metadata call: extraction is always attempted; the
record write is attempted only when both validation gates pass. -/
def uploadTrace (env : UploadEnv) : List Ev :=
  Ev.metaExtract ::
    (match env.raw with
     | [] => []
     | _ :: _ =>
       match process_metadata env.raw with
       | [] => []
       | _ :: _ => [Ev.metaWrite])

/-- Trace of INSAT3DProcessor.process: its own metadata upload, then
subdataset discovery, then one conversion per discovered band. -/
def processTrace (e : ProcEnv) : List Ev :=
  uploadTrace e.meta ++ Ev.discover :: e.subs.map (fun bp => Ev.convert bp.1)

/-- Trace of lambda_handler of app.py: its own direct metadata upload,
followed by everything process does. -/
def lambdaTrace (e : ProcEnv) : List Ev :=
  uploadTrace e.meta ++ processTrace e

/-! Concrete inputs used by scenario conjuncts, counterexamples and
witnesses. -/

/-- Twelve discovered bands, as in the worker-pool scenario of the spec. -/
def bands12 : List (String × String) :=
  [("B01", "p"), ("B02", "p"), ("B03", "p"), ("B04", "p"), ("B05", "p"),
   ("B06", "p"), ("B07", "p"), ("B08", "p"), ("B09", "p"), ("B10", "p"),
   ("B11", "p"), ("B12", "p")]

/-- Conversion behaviour where exactly three of the twelve bands fail. -/
def env12 : String → BandEnv := fun b =>
  if b = "B02" then BandEnv.convFail
  else if b = "B05" then BandEnv.uploadRaise
  else if b = "B09" then BandEnv.convFail
  else BandEnv.ok

/-- Invocation environment of the twelve-band scenario. -/
def e12 : ProcEnv := ⟨"bkt", "file", ⟨[], true⟩, bands12, env12⟩

/-- One-band invocation environment whose single conversion succeeds. -/
def e1ok : ProcEnv :=
  ⟨"b", "f", ⟨[("Unique_Id", PyVal.pstr "u")], true⟩, [("VIS", "p")],
    fun _ => BandEnv.ok⟩

/-- One-band invocation environment whose single conversion fails. -/
def e1fail : ProcEnv :=
  ⟨"b", "f", ⟨[("Unique_Id", PyVal.pstr "u")], true⟩, [("VIS", "p")],
    fun _ => BandEnv.convFail⟩

/-- Raw metadata carrying its own acquisition_timestamp key besides the date
and time fields. -/
def c9raw : List (String × PyVal) :=
  [("Acquisition_Date", PyVal.pstr "20230101"),
   ("Acquisition_Time_in_GMT", PyVal.pstr "0130"),
   ("acquisition_timestamp", PyVal.pstr "XX")]

/-- Raw metadata of the timestamp scenario of the spec. -/
def goodraw : List (String × PyVal) :=
  [("Acquisition_Date", PyVal.pstr "20230101"),
   ("Acquisition_Time_in_GMT", PyVal.pstr "0130")]

/-- Non-empty raw metadata with every required field absent. -/
def c2raw : List (String × PyVal) := [("Foo", PyVal.pstr "bar")]

/-- Discovery output of the two-line scenario of the spec. -/
def twoLineOut : String :=
  "SUBDATASET_1_NAME=HDF5:\"f.h5\"://IMG_VIS\nSUBDATASET_2_NAME=HDF5:\"f.h5\"://IMG_SWIR"

/-- Discovery output whose second line carries a second equals sign that puts
the marker outside piece [1]. -/
def cxOut : String :=
  "SUBDATASET_1_NAME=HDF5:\"f.h5\"://IMG_VIS\nSUBDATASET_2_NAME=x=y://IMG_SWIR"

/-- First line of cxOut, a well-formed matching declaration of band VIS. -/
def cxLine1 : String := "SUBDATASET_1_NAME=HDF5:\"f.h5\"://IMG_VIS"

/-! Dict lemmas. -/

theorem lookupA_dictInsert_self {α : Type} (d : List (String × α)) (k : String)
    (v : α) : lookupA (dictInsert d k v) k = some v := by
  induction d with
  | nil => simp [dictInsert, lookupA]
  | cons kv rest ih =>
      by_cases h : kv.1 = k
      · simp [dictInsert, h, lookupA]
      · simp [dictInsert, h, lookupA, ih]

theorem lookupA_dictInsert_ne {α : Type} (d : List (String × α)) (k k2 : String)
    (v : α) (h : k ≠ k2) :
    lookupA (dictInsert d k v) k2 = lookupA d k2 := by
  induction d with
  | nil => simp [dictInsert, lookupA, h]
  | cons kv rest ih =>
      by_cases hk : kv.1 = k
      · simp [dictInsert, hk, lookupA, h]
      · simp [dictInsert, hk, lookupA, ih]

theorem lookupA_eq_none {α : Type} (d : List (String × α)) (k : String)
    (h : k ∉ d.map Prod.fst) : lookupA d k = none := by
  induction d with
  | nil => rfl
  | cons kv rest ih =>
      simp only [List.map_cons, List.mem_cons] at h
      push_neg at h
      simp [lookupA, Ne.symm h.1, ih h.2]

theorem dictFold_lookup_notmem {β γ : Type} (F : String × β → Option γ)
    (l : List (String × β)) (acc : List (String × γ)) (k : String)
    (h : k ∉ l.map Prod.fst) :
    lookupA (dictFold F l acc) k = lookupA acc k := by
  induction l generalizing acc with
  | nil => rfl
  | cons kv rest ih =>
      simp only [List.map_cons, List.mem_cons] at h
      push_neg at h
      have hstep : ∀ a : List (String × γ),
          lookupA (match F kv with
            | some v => dictInsert a kv.1 v
            | none => a) k = lookupA a k := by
        intro a
        cases F kv with
        | some v => exact lookupA_dictInsert_ne a kv.1 k v (Ne.symm h.1)
        | none => rfl
      have hcons : dictFold F (kv :: rest) acc
          = dictFold F rest (match F kv with
            | some v => dictInsert acc kv.1 v
            | none => acc) := rfl
      rw [hcons, ih _ h.2]
      exact hstep acc

theorem dictFold_lookup_mem {β γ : Type} (F : String × β → Option γ)
    (l : List (String × β)) (acc : List (String × γ)) (k : String) (b : β)
    (hnd : (l.map Prod.fst).Nodup) (hm : (k, b) ∈ l) :
    lookupA (dictFold F l acc) k =
      match F (k, b) with
      | some v => some v
      | none => lookupA acc k := by
  induction l generalizing acc with
  | nil => cases hm
  | cons kv rest ih =>
      simp only [List.map_cons, List.nodup_cons] at hnd
      rcases List.mem_cons.mp hm with hh | ht
      · subst hh
        have hnot : k ∉ rest.map Prod.fst := hnd.1
        have hcons : dictFold F ((k, b) :: rest) acc
            = dictFold F rest (match F (k, b) with
              | some v => dictInsert acc k v
              | none => acc) := rfl
        rw [hcons, dictFold_lookup_notmem F rest _ k hnot]
        cases F (k, b) with
        | some v => exact lookupA_dictInsert_self acc k v
        | none => rfl
      · have hkne : kv.1 ≠ k := by
          intro he
          exact hnd.1 (he ▸ List.mem_map_of_mem Prod.fst ht)
        have hstep : ∀ a : List (String × γ),
            lookupA (match F kv with
              | some v => dictInsert a kv.1 v
              | none => a) k = lookupA a k := by
          intro a
          cases F kv with
          | some v => exact lookupA_dictInsert_ne a kv.1 k v hkne
          | none => rfl
        have hcons : dictFold F (kv :: rest) acc
            = dictFold F rest (match F kv with
              | some v => dictInsert acc kv.1 v
              | none => acc) := rfl
        rw [hcons, ih _ hnd.2 ht]
        cases F (k, b) with
        | some v => rfl
        | none => exact hstep acc

/-! Bridging lemmas: the source loops are instances of dictFold. -/

theorem process_metadata_eq_dictFold (raw : List (String × PyVal)) :
    process_metadata raw = dictFold remF raw (metaWithTimestamp raw) := by
  unfold process_metadata dictFold
  refine List.foldl_ext _ _ _ ?_
  intro acc kv _
  rcases kv with ⟨k, v⟩
  cases v <;> rfl

theorem processResults_eq_dictFold (e : ProcEnv) :
    processResults e = dictFold (bandF e) e.subs [] := by
  unfold processResults dictFold
  refine List.foldl_ext _ _ _ ?_
  intro acc bp _
  unfold bandF
  cases h : (process_band e.bucket e.filename bp.1 bp.2 (e.benv bp.1) []).1 with
  | none => rfl
  | some r => by_cases hr : r = "" <;> simp [hr]

/-! Helper lemmas. -/

theorem s3_loc_ne_empty (b k : String) : ("s3://" ++ b ++ "/" ++ k) ≠ "" := by
  intro h
  have hlen := congrArg String.length h
  simp only [String.length_append] at hlen
  have h5 : ("s3://" : String).length = 5 := rfl
  have h1 : ("/" : String).length = 1 := rfl
  have h0 : ("" : String).length = 0 := rfl
  omega

theorem upload_written_eq (env : UploadEnv)
    (item : List (String × DynVal))
    (h : (upload_metadata env).1 = some item) :
    item = itemOf (process_metadata env.raw) ∧ env.putOk = true := by
  unfold upload_metadata at h
  cases hr : env.raw with
  | nil => rw [hr] at h; cases h
  | cons a as =>
      rw [hr] at h
      cases hp : process_metadata (a :: as) with
      | nil => rw [hp] at h; cases h
      | cons p ps =>
          rw [hp] at h
          cases hput : env.putOk with
          | false => rw [hput] at h; simp at h
          | true =>
              rw [hput] at h
              simp at h
              exact ⟨h.symm, rfl⟩

/-! Claim theorems. -/

/-- Claim C5: for every command and timeout duration, the external tool
invoker returns (true, stdout) on a zero exit, (false, Timeout) on a timeout,
and (false, stderr) on a non-zero exit; run_command is total, so no fault
reaches the caller in any of the three cases. -/
theorem run_command_cases (command : List String) (timeoutSec : Nat)
    (code : Nat) (out err : String) :
    run_command command timeoutSec (ProcOutcome.exited 0 out err) = (true, out)
  ∧ run_command command timeoutSec ProcOutcome.timedOut = (false, "Timeout")
  ∧ (code ≠ 0 →
      run_command command timeoutSec (ProcOutcome.exited code out err)
        = (false, err)) := by
  refine ⟨rfl, rfl, ?_⟩
  intro h
  simp [run_command, h]

/-- Witness for C5: a concrete non-zero exit yields (false, stderr). -/
theorem run_command_cases_witness :
    run_command ["/usr/bin/gdalinfo"] 600 (ProcOutcome.exited 2 "o" "e")
      = (false, "e") :=
  (run_command_cases ["/usr/bin/gdalinfo"] 600 2 "o" "e").2.2 (by decide)

/-- Claim C6: after process_band returns, whatever the band environment did
(success, conversion failure, or an upload fault) and whatever the starting
filesystem held, the temporary artifact path derived from the band identifier
is absent from the filesystem. -/
theorem process_band_cleanup (bucket filename band subPath : String)
    (e : BandEnv) (fs : List String) :
    tempPath band ∉ (process_band bucket filename band subPath e fs).2 := by
  cases e <;> simp [process_band, fsRemove, List.mem_filter]

/-- Claim C2 (amended): upload_metadata writes nothing and returns false when
extraction yields no fields or post-processing yields no fields, and any
record it does write is the complete processed record with success reported;
absence of a required field alone does not abort the upload. -/
theorem upload_metadata_validation (env : UploadEnv) :
    (env.raw = [] → upload_metadata env = (none, false))
  ∧ (process_metadata env.raw = [] → upload_metadata env = (none, false))
  ∧ (∀ item, (upload_metadata env).1 = some item →
      item = itemOf (process_metadata env.raw) ∧ (upload_metadata env).2 = true) := by
  refine ⟨?_, ?_, ?_⟩
  · intro h
    unfold upload_metadata
    rw [h]
  · intro h
    unfold upload_metadata
    cases hr : env.raw with
    | nil => rfl
    | cons a as =>
        rw [hr] at h
        rw [h]
  · intro item h
    have hw := upload_written_eq env item h
    refine ⟨hw.1, ?_⟩
    unfold upload_metadata at h ⊢
    cases hr : env.raw with
    | nil => rw [hr] at h; cases h
    | cons a as =>
        rw [hr] at h
        cases hp : process_metadata (a :: as) with
        | nil => rw [hp] at h; cases h
        | cons p ps =>
            rw [hp] at h
            rw [hw.2] at h ⊢
            rfl

/-- Witness for C2: with an empty extraction result, nothing is written and
failure is reported. -/
theorem upload_metadata_validation_witness :
    upload_metadata ⟨[], true⟩ = (none, false) :=
  (upload_metadata_validation ⟨[], true⟩).1 rfl

/-- Counterexample to C2 as stated: a non-empty raw mapping missing every
required field (no Unique_Id, no date, no time) is still written in full and
reported as success, so the required-fields presence check claimed by the
spec does not exist in upload_metadata. -/
theorem upload_metadata_missing_required_cx :
    lookupA c2raw "Unique_Id" = none
  ∧ lookupA c2raw "Acquisition_Date" = none
  ∧ lookupA c2raw "Acquisition_Time_in_GMT" = none
  ∧ upload_metadata ⟨c2raw, true⟩ = (some [("Foo", DynVal.S "bar")], true) := by
  decide

/-- Claim C10: every entry of a record written by upload_metadata is tagged S
exactly when the processed value is a string (rendered as itself, which is its
str rendering), and tagged N with the str rendering otherwise; the DynVal type
of the embedding has no third constructor, as the source comprehension has no
third branch. -/
theorem upload_item_tags (env : UploadEnv) (item : List (String × DynVal))
    (h : (upload_metadata env).1 = some item) :
    ∀ k dv, (k, dv) ∈ item →
      ∃ v, (k, v) ∈ process_metadata env.raw ∧
        ((∃ s, v = PyVal.pstr s ∧ dv = DynVal.S s) ∨
         ((∀ s, v ≠ PyVal.pstr s) ∧ dv = DynVal.N (pyStr v))) := by
  intro k dv hmem
  rw [(upload_written_eq env item h).1] at hmem
  unfold itemOf at hmem
  rcases List.mem_map.mp hmem with ⟨kv, hkv, heq⟩
  refine ⟨kv.2, ?_, ?_⟩
  · have hk : kv.1 = k := congrArg Prod.fst heq
    rw [← hk]
    exact hkv
  · have hdv : dynOf kv.2 = dv := congrArg Prod.snd heq
    rcases kv with ⟨k2, v⟩
    rw [← hdv]
    cases v with
    | pstr s => exact Or.inl ⟨s, rfl, rfl⟩
    | pint n => exact Or.inr ⟨fun s hs => PyVal.noConfusion hs, rfl⟩
    | pfloat z r => exact Or.inr ⟨fun s hs => PyVal.noConfusion hs, rfl⟩
    | pbool b => exact Or.inr ⟨fun s hs => PyVal.noConfusion hs, rfl⟩
    | pnone => exact Or.inr ⟨fun s hs => PyVal.noConfusion hs, rfl⟩
    | plist xs => exact Or.inr ⟨fun s hs => PyVal.noConfusion hs, rfl⟩

/-- Witness for C10: the record written for the single string field Foo tags
it S with its own rendering. -/
theorem upload_item_tags_witness :
    ∃ v, ("Foo", v) ∈ process_metadata c2raw ∧
      ((∃ s, v = PyVal.pstr s ∧ DynVal.S "bar" = DynVal.S s) ∨
       ((∀ s, v ≠ PyVal.pstr s) ∧ DynVal.S "bar" = DynVal.N (pyStr v))) :=
  upload_item_tags ⟨c2raw, true⟩ [("Foo", DynVal.S "bar")] (by decide)
    "Foo" (DynVal.S "bar") (by decide)

/-- Claim C7: in the processed metadata, the entry for a key whose raw value
is a non-float scalar (string, int, bool) is the stringified value, a float
value is passed through unchanged, and a one-element list is unwrapped to its
sole element; these are the only exceptions to stringification among the
covered value shapes. -/
theorem process_metadata_scalar_rules (raw : List (String × PyVal)) (k : String)
    (v : PyVal) (hnd : (raw.map Prod.fst).Nodup) (hm : (k, v) ∈ raw) :
    (∀ s, v = PyVal.pstr s →
       lookupA (process_metadata raw) k = some (PyVal.pstr s))
  ∧ (∀ n, v = PyVal.pint n →
       lookupA (process_metadata raw) k = some (PyVal.pstr (pyStr (PyVal.pint n))))
  ∧ (∀ b, v = PyVal.pbool b →
       lookupA (process_metadata raw) k = some (PyVal.pstr (pyStr (PyVal.pbool b))))
  ∧ (∀ z r, v = PyVal.pfloat z r →
       lookupA (process_metadata raw) k = some (PyVal.pfloat z r))
  ∧ (∀ x, v = PyVal.plist (PyList.cons x PyList.nil) →
       lookupA (process_metadata raw) k = some x) := by
  have master : v ≠ PyVal.pnone →
      lookupA (process_metadata raw) k = some (convertVal v) := by
    intro hnn
    rw [process_metadata_eq_dictFold,
      dictFold_lookup_mem remF raw (metaWithTimestamp raw) k v hnd hm]
    cases v with
    | pnone => exact absurd rfl hnn
    | pstr s => rfl
    | pint n => rfl
    | pfloat z r => rfl
    | pbool b => rfl
    | plist xs => rfl
  refine ⟨?_, ?_, ?_, ?_, ?_⟩
  · intro s hs; subst hs; exact master (fun h => PyVal.noConfusion h)
  · intro n hn; subst hn; exact master (fun h => PyVal.noConfusion h)
  · intro b hb; subst hb; exact master (fun h => PyVal.noConfusion h)
  · intro z r hf; subst hf; exact master (fun h => PyVal.noConfusion h)
  · intro x hx; subst hx; exact master (fun h => PyVal.noConfusion h)

/-- Witness for C7: an integer scalar is stringified. -/
theorem process_metadata_scalar_rules_witness :
    lookupA (process_metadata [("K", PyVal.pint 7)]) "K"
      = some (PyVal.pstr (pyStr (PyVal.pint 7))) :=
  (process_metadata_scalar_rules [("K", PyVal.pint 7)] "K" (PyVal.pint 7)
    (by decide) (by decide)).2.1 7 rfl

/-- Claim C9 (amended): when the date and time fields are present and truthy
and the raw mapping does not itself carry an acquisition_timestamp key, the
processed record maps acquisition_timestamp to date T time Z; a raw entry
under that key would be copied over the synthesized value by the
remaining-fields loop. -/
theorem process_metadata_timestamp (raw : List (String × PyVal))
    (dv tv : PyVal)
    (hd : lookupA raw "Acquisition_Date" = some dv)
    (ht : lookupA raw "Acquisition_Time_in_GMT" = some tv)
    (hdt : pyTruthy dv = true) (htt : pyTruthy tv = true)
    (hna : "acquisition_timestamp" ∉ raw.map Prod.fst) :
    lookupA (process_metadata raw) "acquisition_timestamp"
      = some (PyVal.pstr (pyStr dv ++ "T" ++ pyStr tv ++ "Z")) := by
  rw [process_metadata_eq_dictFold,
    dictFold_lookup_notmem remF raw _ _ hna]
  simp only [metaWithTimestamp, hd, ht, Option.getD_some, hdt, htt,
    Bool.and_self, if_true]
  exact lookupA_dictInsert_self _ _ _

/-- Witness for C9: the spec scenario date and time yield the synthesized
timestamp. -/
theorem process_metadata_timestamp_witness :
    lookupA (process_metadata goodraw) "acquisition_timestamp"
      = some (PyVal.pstr "20230101T0130Z") :=
  process_metadata_timestamp goodraw (PyVal.pstr "20230101") (PyVal.pstr "0130")
    (by decide) (by decide) (by decide) (by decide) (by decide)

/-- Counterexample to C9 as stated: a raw mapping that also carries its own
acquisition_timestamp field has that raw value, not the synthesized
concatenation, in the processed record, because the remaining-fields loop
overwrites the synthesized entry. -/
theorem process_metadata_timestamp_cx :
    lookupA c9raw "Acquisition_Date" = some (PyVal.pstr "20230101")
  ∧ lookupA c9raw "Acquisition_Time_in_GMT" = some (PyVal.pstr "0130")
  ∧ lookupA (process_metadata c9raw) "acquisition_timestamp"
      = some (PyVal.pstr "XX")
  ∧ "XX" ≠ "20230101T0130Z" := by decide

/-- Case analysis of the per-band transformation: a band whose environment
succeeds contributes its s3 destination (never empty, so never filtered by
the truthiness test), and both failure modes contribute nothing. -/
theorem bandF_cases (e : ProcEnv) (X path : String) :
    bandF e (X, path) =
      match e.benv X with
      | BandEnv.ok =>
          some ("s3://" ++ e.bucket ++ "/" ++ e.filename ++ "/" ++ X ++ "_cog.tiff")
      | BandEnv.convFail => none
      | BandEnv.uploadRaise => none := by
  cases hb : e.benv X with
  | ok =>
      have hne := s3_loc_ne_empty e.bucket (e.filename ++ "/" ++ X ++ "_cog.tiff")
      simp only [String.append_assoc] at hne
      simp [bandF, process_band, hb, hne, String.append_assoc]
  | convFail => simp [bandF, process_band, hb]
  | uploadRaise => simp [bandF, process_band, hb]

/-- Claim C1: with unique band names, the orchestrator result has an entry
for band X exactly when its conversion succeeded (valued with the s3
destination); a conversion failure or an internally raised fault for X is
excluded without touching any other band (isolation across environments that
agree off X); and in the twelve-band scenario with three failures the result
has exactly nine entries. -/
theorem process_results_characterization (e : ProcEnv)
    (hnd : (e.subs.map Prod.fst).Nodup) :
    (∀ X path, (X, path) ∈ e.subs →
       lookupA (processResults e) X =
         match e.benv X with
         | BandEnv.ok =>
             some ("s3://" ++ e.bucket ++ "/" ++ e.filename ++ "/" ++ X ++ "_cog.tiff")
         | BandEnv.convFail => none
         | BandEnv.uploadRaise => none)
  ∧ (∀ X, X ∉ e.subs.map Prod.fst → lookupA (processResults e) X = none)
  ∧ (∀ e2 : ProcEnv, ∀ X : String, e2.bucket = e.bucket → e2.filename = e.filename →
       e2.subs = e.subs → (∀ Z, Z ≠ X → e2.benv Z = e.benv Z) →
       ∀ Y, Y ≠ X → lookupA (processResults e2) Y = lookupA (processResults e) Y)
  ∧ (processResults e12).length = 9 := by
  have hlookup : ∀ e3 : ProcEnv, (e3.subs.map Prod.fst).Nodup →
      ∀ X path, (X, path) ∈ e3.subs →
      lookupA (processResults e3) X = bandF e3 (X, path) := by
    intro e3 hnd3 X path hm
    rw [processResults_eq_dictFold,
      dictFold_lookup_mem (bandF e3) e3.subs [] X path hnd3 hm]
    cases bandF e3 (X, path) with
    | some v => rfl
    | none => rfl
  refine ⟨?_, ?_, ?_, by decide⟩
  · intro X path hm
    rw [hlookup e hnd X path hm, bandF_cases]
  · intro X hX
    rw [processResults_eq_dictFold, dictFold_lookup_notmem _ _ _ _ hX]
    rfl
  · intro e2 X hb hf hs hbe Y hY
    by_cases hmem : Y ∈ e.subs.map Prod.fst
    · rcases List.mem_map.mp hmem with ⟨⟨b1, p1⟩, hbp, hfst⟩
      have hfst2 : b1 = Y := hfst
      rw [hfst2] at hbp
      have hnd2 : (e2.subs.map Prod.fst).Nodup := by rw [hs]; exact hnd
      have hbp2 : (Y, p1) ∈ e2.subs := by rw [hs]; exact hbp
      rw [hlookup e hnd Y p1 hbp, hlookup e2 hnd2 Y p1 hbp2,
        bandF_cases, bandF_cases, hb, hf, hbe Y hY]
    · have hmem2 : Y ∉ e2.subs.map Prod.fst := by rw [hs]; exact hmem
      rw [processResults_eq_dictFold, processResults_eq_dictFold,
        dictFold_lookup_notmem _ _ _ _ hmem, dictFold_lookup_notmem _ _ _ _ hmem2]

/-- Witness for C1: in a one-band environment whose conversion succeeds, the
result maps the band to its destination location. -/
theorem process_results_characterization_witness :
    lookupA (processResults e1ok) "VIS" = some "s3://b/f/VIS_cog.tiff" := by
  have h := (process_results_characterization e1ok (by decide)).1 "VIS" "p" (by decide)
  exact h

/-- Claim C3 (amended): the process_file entry point answers 200 exactly when
at least one band conversion succeeded, and answers 500 with the error
description when the result mapping is empty; the lambda_handler entry point
of app.py is the counterexample to the claim as stated, since it answers 200
even then. -/
theorem process_file_status (e : ProcEnv) :
    ((process_file e).1 = 200 ↔ processResults e ≠ [])
  ∧ (processResults e = [] →
      process_file e = (500, Sum.inr "No output files generated"))
  ∧ (processResults e ≠ [] →
      process_file e = (200, Sum.inl ((processResults e).map Prod.fst))) := by
  unfold process_file
  cases h : processResults e with
  | nil => simp
  | cons r rs => simp

/-- Witness for C3: with one discovered band whose conversion fails,
process_file answers 500 with the error description. -/
theorem process_file_status_witness :
    process_file e1fail = (500, Sum.inr "No output files generated") :=
  (process_file_status e1fail).2.1 (by decide)

/-- Counterexample to C3 as stated: lambda_handler answers 200 with an empty
band list although one band was discovered and every conversion failed, so
the invocation through app.py does not return 500 on total conversion
failure. -/
theorem lambda_empty_results_cx :
    e1fail.subs ≠ []
  ∧ processResults e1fail = []
  ∧ lambda_handler e1fail = (200, (true, [])) := by decide

/-- Shape of one upload trace: extraction always happens once, and at most
one write follows it. -/
theorem uploadTrace_shape (env : UploadEnv) :
    uploadTrace env = [Ev.metaExtract]
  ∨ uploadTrace env = [Ev.metaExtract, Ev.metaWrite] := by
  unfold uploadTrace
  cases env.raw with
  | nil => left; rfl
  | cons a as =>
      cases process_metadata (a :: as) with
      | nil => left; rfl
      | cons p ps => right; rfl

/-- Claim C4 (amended): within INSAT3DProcessor.process (the trace of the
process_file path), metadata extraction is attempted exactly once and the
record write at most once, all before subdataset discovery, which precedes
every band conversion; the lambda_handler entry point is the counterexample
to exactly-once, since it adds a second extraction of its own. -/
theorem processTrace_metadata_once (e : ProcEnv) :
    (processTrace e).count Ev.metaExtract = 1
  ∧ (processTrace e).count Ev.metaWrite ≤ 1
  ∧ ∃ pre post, processTrace e = pre ++ Ev.discover :: post
      ∧ (∀ ev ∈ pre, ev = Ev.metaExtract ∨ ev = Ev.metaWrite)
      ∧ (∀ ev ∈ post, ∃ b, ev = Ev.convert b) := by
  have hz1 : (e.subs.map (fun bp => Ev.convert bp.1)).count Ev.metaExtract = 0 := by
    rw [List.count_eq_zero]
    simp
  have hz2 : (e.subs.map (fun bp => Ev.convert bp.1)).count Ev.metaWrite = 0 := by
    rw [List.count_eq_zero]
    simp
  refine ⟨?_, ?_, uploadTrace e.meta,
    e.subs.map (fun bp : String × String => Ev.convert bp.1), rfl, ?_, ?_⟩
  · unfold processTrace
    rcases uploadTrace_shape e.meta with h | h <;>
      simp [h, List.count_append, List.count_cons, hz1]
  · unfold processTrace
    rcases uploadTrace_shape e.meta with h | h <;>
      simp [h, List.count_append, List.count_cons, hz2]
  · intro ev hev
    rcases uploadTrace_shape e.meta with h | h <;> rw [h] at hev
    · simp at hev
      exact Or.inl hev
    · simp at hev
      exact hev
  · intro ev hev
    rcases List.mem_map.mp hev with ⟨bp, _, hbp⟩
    exact ⟨bp.1, hbp.symm⟩

/-- Witness for C4: a concrete process trace attempts exactly one metadata
extraction. -/
theorem processTrace_metadata_once_witness :
    (processTrace e1ok).count Ev.metaExtract = 1 :=
  (processTrace_metadata_once e1ok).1

/-- Counterexample to C4 as stated: the invocation through lambda_handler of
app.py attempts metadata extraction twice (once directly, once inside
process), not exactly once. -/
theorem lambda_metadata_twice_cx :
    (lambdaTrace e1ok).count Ev.metaExtract = 2 := by decide

/-- Soundness of the parse fold: every entry of a completed fold comes from
some matching line whose extraction produced exactly that pair, or was
already in the accumulator. -/
theorem subFold_sound (lines : List String) (acc d : List (String × String))
    (h : List.foldlM subStep acc lines = some d) (b p : String)
    (hl : lookupA d b = some p) :
    (∃ line ∈ lines, lineMatches line = true ∧ lineEntry line = some (b, p))
    ∨ lookupA acc b = some p := by
  induction lines generalizing acc with
  | nil =>
      simp only [List.foldlM_nil] at h
      have hacc : acc = d := by simpa using h
      subst hacc
      exact Or.inr hl
  | cons line rest ih =>
      rw [List.foldlM_cons] at h
      cases hs : subStep acc line with
      | none => rw [hs] at h; simp at h
      | some acc1 =>
          rw [hs] at h
          simp only [Option.bind_eq_bind, Option.some_bind] at h
          rcases ih acc1 h with hres | hacc
          · left
            obtain ⟨l2, hl2, hm2⟩ := hres
            exact ⟨l2, List.mem_cons_of_mem line hl2, hm2⟩
          · unfold subStep at hs
            by_cases hmatch : lineMatches line
            · rw [if_pos hmatch] at hs
              cases he : lineEntry line with
              | none => rw [he] at hs; cases hs
              | some ent =>
                  rw [he] at hs
                  have hacc1 : acc1 = dictInsert acc ent.1 ent.2 := by
                    injection hs with h2
                    exact h2.symm
                  rw [hacc1] at hacc
                  by_cases hb : ent.1 = b
                  · subst hb
                    rw [lookupA_dictInsert_self] at hacc
                    injection hacc with h3
                    left
                    refine ⟨line, List.mem_cons_self line rest, hmatch, ?_⟩
                    rw [he, ← h3]
                  · rw [lookupA_dictInsert_ne acc ent.1 b ent.2 hb] at hacc
                    exact Or.inr hacc
            · rw [if_neg hmatch] at hs
              have ha : acc1 = acc := by
                injection hs with h2
                exact h2.symm
              rw [ha] at hacc
              exact Or.inr hacc

/-- Claim C8 (amended): parsing is a pure function of the stdout text; every
entry of the parsed mapping comes from a matching line via the split-based
extraction (piece between the first and second equals sign, band name between
the marker and the next quote), an extraction failure on any matching line
empties the whole mapping, and the two-line scenario yields exactly the keys
VIS and SWIR. -/
theorem subdatasets_parse_sound :
    (∀ output b p, lookupA (get_subdatasets_parse output) b = some p →
       ∃ line ∈ pySplitlines output, lineMatches line = true
         ∧ lineEntry line = some (b, p))
  ∧ (get_subdatasets_parse twoLineOut).map Prod.fst = ["VIS", "SWIR"] := by
  constructor
  · intro output b p h
    unfold get_subdatasets_parse at h
    cases hf : List.foldlM subStep [] (pySplitlines output) with
    | none => rw [hf] at h; simp [lookupA] at h
    | some d =>
        rw [hf] at h
        rcases subFold_sound (pySplitlines output) [] d hf b p h with hres | hacc
        · exact hres
        · simp [lookupA] at hacc
  · decide

/-- Witness for C8: the VIS entry of the two-line scenario comes from its
matching line. -/
theorem subdatasets_parse_sound_witness :
    ∃ line ∈ pySplitlines twoLineOut, lineMatches line = true
      ∧ lineEntry line = some ("VIS", "HDF5:\"f.h5\"://IMG_VIS") :=
  subdatasets_parse_sound.1 twoLineOut "VIS" "HDF5:\"f.h5\"://IMG_VIS" (by decide)

/-- Counterexample to C8 as stated: an output whose first line is a
well-formed matching declaration of band VIS still parses to the empty
mapping when another matching line has its marker after a second equals
sign (the IndexError aborts the whole loop), so the per-line extraction
rule of the claim does not hold for each matching line. -/
theorem subdatasets_parse_cx :
    cxLine1 ∈ pySplitlines cxOut
  ∧ lineMatches cxLine1 = true
  ∧ lineEntry cxLine1 = some ("VIS", "HDF5:\"f.h5\"://IMG_VIS")
  ∧ get_subdatasets_parse cxOut = [] := by decide
